import Mathlib

/-!
Verification development for the ethereum-validator-api service.

The definitions below are a shallow embedding of the Go code in
service/ethereumService.go and handler/blockrewardHandler.go /
handler/syncdutiesHandler.go.  Pure computations are translated to Lean
functions; each outbound JSON-RPC round trip is modelled by an environment
value that supplies the (decoded) upstream response, and the
retry-on-rate-limit recursion is modelled with an explicit fuel parameter
(fuel exhaustion is reported as a distinguished `diverge` outcome).
Go `int64` division and remainder are truncated, so they are embedded as
`Int.tdiv` / `Int.tmod`; `math/big` `Div` is Euclidean division, embedded
as `Int.ediv`.  All arithmetic is arbitrary precision, matching `big.Int`
in the reward path (64-bit overflow is unreachable for slots that pass the
future-slot gate, so plain `Int` is used for slot arithmetic).
-/

namespace EthApi

/-- Go `strings.ToLower` restricted to the ASCII range, which is the only
range exercised by the builder-name table. -/
def goToLower (s : String) : String := String.mk (s.data.map Char.toLower)

/-- Go `strings.Contains s sub`: `sub` occurs as a contiguous substring of
`s`. -/
def goContains (s sub : String) : Bool := decide (List.IsInfix sub.data s.data)

/-- Go `strings.TrimPrefix s "0x"`. -/
def goTrim0x (s : String) : String :=
  match s.data with
  | '0' :: 'x' :: rest => String.mk rest
  | _ => s

/-- Value of one hexadecimal digit, as accepted by `big.Int.SetString`
with base 16. -/
def hexDigit? (c : Char) : Option Nat :=
  if '0' ≤ c ∧ c ≤ '9' then some (c.toNat - '0'.toNat)
  else if 'a' ≤ c ∧ c ≤ 'f' then some (c.toNat - 'a'.toNat + 10)
  else if 'A' ≤ c ∧ c ≤ 'F' then some (c.toNat - 'A'.toNat + 10)
  else none

/-- Accumulating hexadecimal parser over a digit list. -/
def hexNatAux : List Char → Nat → Option Nat
  | [], acc => some acc
  | c :: cs, acc =>
    match hexDigit? c with
    | some d => hexNatAux cs (acc * 16 + d)
    | none => none

/-- Hexadecimal parse of a non-empty digit list. -/
def hexNat? : List Char → Option Nat
  | [] => none
  | l => hexNatAux l 0

/-- Go `new(big.Int).SetString(s, 16)`: an optional sign followed by at
least one hex digit; `none` models the `ok = false` outcome. -/
def parseHexInt (s : String) : Option Int :=
  match s.data with
  | '-' :: rest => (hexNat? rest).map (fun n => -(n : Int))
  | '+' :: rest => (hexNat? rest).map (fun n => (n : Int))
  | l => (hexNat? l).map (fun n => (n : Int))

/-- Go `big.Int.Int64()` (wrapping truncation to signed 64 bits). -/
def toInt64 (n : Int) : Int := (n + 2 ^ 63).emod (2 ^ 64) - 2 ^ 63

/-- A JSON-RPC `error{code,message}` object. -/
structure RpcError where
  code : Int
  message : String
deriving Repr, DecidableEq

/-- The fields of `BeaconBlockResponse` that the service actually reads,
with the `Data.Message.Body.ExecutionPayload` nesting flattened (the
intermediate records carry no data of their own). -/
structure BeaconBlockResponse where
  blockHash : String
  feeRecipient : String
  extraData : String
  blockNumber : String
  baseFeePerGas : String
  transactions : List String
deriving Repr, DecidableEq

/-- Known MEV-Boost builder markers looked for in `extraData`
(`mevBuilderPrefixes` in the source). -/
def mevBuilderPrefixes : List String :=
  ["flashbots", "builder0x69", "rsync-builder", "manifold", "eth-builder"]

/-- Embedding of `isMEVBlock`: empty extra data is vanilla; a builder
marker in the lowercased extra data is MEV; more than 20 transactions is
MEV; otherwise vanilla. -/
def isMEVBlock (block : BeaconBlockResponse) : Bool :=
  let extraData := block.extraData
  if extraData.length == 0 then false
  else if mevBuilderPrefixes.any (fun p => goContains (goToLower extraData) p) then true
  else if block.transactions.length > 20 then true
  else false

/-- Reference MEV classifier written from the words of the specification:
empty extra data is vanilla even above the transaction threshold;
otherwise a case-insensitive match of any of the five fixed builder names
is MEV; otherwise strictly more than 20 transactions is MEV; otherwise
vanilla. -/
def isMEVBlockRef (block : BeaconBlockResponse) : Bool :=
  if block.extraData = "" then false
  else if goContains (goToLower block.extraData) "flashbots"
       || goContains (goToLower block.extraData) "builder0x69"
       || goContains (goToLower block.extraData) "rsync-builder"
       || goContains (goToLower block.extraData) "manifold"
       || goContains (goToLower block.extraData) "eth-builder" then true
  else if 20 < block.transactions.length then true
  else false

theorem string_length_eq_zero_iff (s : String) : (s.length == 0) = true ↔ s = "" := by
  cases s with
  | mk data =>
    cases data with
    | nil => simp [String.length]
    | cons c cs =>
      simp only [String.length, beq_iff_eq, List.length_cons]
      constructor
      · intro h; omega
      · intro h; simpa using congrArg String.data h

example : isMEVBlock ⟨"", "", "", "", "", []⟩ = false := by decide
example : isMEVBlock ⟨"", "", "Flashbots build", "", "", []⟩ = true := by decide

/-- The names of the outbound JSON-RPC calls the service can issue; the
resolvers below also return the ordered trace of calls they performed. -/
inductive RpcCall where
  | getBlockByNumber (slot : Int)
  | ethSyncing
  | getStateSyncCommittees (epoch syncPeriod : Int)
  | getValidators (epoch : Int)
  | getBlockByHash (hash : String)
deriving Repr, DecidableEq

/-- One entry of the `transactions` array of an `eth_getBlockByNumber`
result: a bare hash string, an object whose `hash` field may or may not be
a string, or a value of some other JSON type (skipped by the code). -/
inductive TxEntry where
  | txString (hash : String)
  | txObject (hash : Option String)
  | txOther
deriving Repr, DecidableEq

/-- The fields `getBeaconBlock` extracts from the decoded
`map[string]interface{}` result; `none` models a field that is absent or
not of string (resp. array) type. -/
structure BlockResultMap where
  hash : Option String
  miner : Option String
  extraData : Option String
  number : Option String
  transactions : Option (List TxEntry)
  baseFeePerGas : Option String
deriving Repr, DecidableEq

/-- The possible upstream responses to the block fetch, as seen after the
raw-body rate-limit test and the JSON decode in `getBeaconBlock`:
a body containing the rate-limit marker, a body that fails to decode,
or a decoded JSON-RPC envelope with optional `error` and `result`. -/
inductive BeaconFetchBody where
  | rateLimited
  | decodeFail (msg : String)
  | rpc (error : Option RpcError) (result : Option BlockResultMap)
deriving Repr, DecidableEq

/-- One transaction object of an `eth_getBlockByHash` result; each field
is `none` when absent or not a string. -/
structure ExecTx where
  maxPriorityFeePerGas : Option String
  gasPrice : Option String
  gas : Option String
deriving Repr, DecidableEq

/-- One entry of the execution-block `transactions` array: a bare hash
string (skipped by the reward loop) or a transaction object. -/
inductive ExecTxEntry where
  | txString (hash : String)
  | txObject (tx : ExecTx)
deriving Repr, DecidableEq

/-- The fields `getExecutionBlockReward` reads from the decoded result. -/
structure ExecResultMap where
  baseFeePerGas : Option String
  transactions : Option (List ExecTxEntry)
deriving Repr, DecidableEq

/-- The possible upstream responses to the execution-block fetch. -/
inductive ExecFetchBody where
  | rateLimited
  | decodeFail (msg : String)
  | rpc (error : Option RpcError) (result : Option ExecResultMap)
deriving Repr, DecidableEq

/-- The upstream environment of the block-reward resolver: the response of
each fetch, indexed by the remaining retry fuel so that successive retry
attempts may observe different responses. -/
structure RewardEnv where
  beaconResp : Nat → BeaconFetchBody
  execResp : Nat → ExecFetchBody

/-- Outcome of an inner fetch: a value, an error carrying the exact Go
error string, or divergence (the rate-limit retry never stopped). -/
inductive FetchResult (α : Type) where
  | ok (a : α)
  | err (msg : String)
  | diverge
deriving Repr, DecidableEq

/-- Go `ok && s != ""` on a `map[string]interface{}` string field: the
field is present as a string and non-empty. -/
def presentNonempty (o : Option String) : Option String :=
  match o with
  | some s => if s = "" then none else some s
  | none => none

/-- The transaction-hash extraction loop of `getBeaconBlock`: strings are
kept, objects contribute their `hash` field when it is a string, anything
else is skipped. -/
def extractTxHashes (l : List TxEntry) : List String :=
  l.filterMap (fun e =>
    match e with
    | .txString h => some h
    | .txObject h => h
    | .txOther => none)

/-- Field-by-field construction of the `BeaconBlockResponse` value that
`getBeaconBlock` assembles from the decoded result map (absent fields keep
the zero value `""` / `[]`). -/
def buildBeaconBlock (m : BlockResultMap) : BeaconBlockResponse :=
  { blockHash := m.hash.getD ""
    feeRecipient := m.miner.getD ""
    extraData := m.extraData.getD ""
    blockNumber := m.number.getD ""
    baseFeePerGas := m.baseFeePerGas.getD ""
    transactions := extractTxHashes (m.transactions.getD []) }

/-- Embedding of `getBeaconBlock`, with the rate-limit retry recursion
driven by fuel.  Error strings reproduce the Go `fmt.Errorf` messages
verbatim, since `GetBlockRewardBySlot` later inspects them with
`strings.Contains`. -/
def getBeaconBlock (env : RewardEnv) (slot : Int) :
    Nat → FetchResult BeaconBlockResponse × List RpcCall
  | 0 => (.diverge, [])
  | n + 1 =>
    let call := RpcCall.getBlockByNumber slot
    match env.beaconResp (n + 1) with
    | .rateLimited =>
      let r := getBeaconBlock env slot n
      (r.1, call :: r.2)
    | .decodeFail m => (.err ("failed to decode response: " ++ m), [call])
    | .rpc (some er) _ =>
      if er.message = "Unknown block" then
        (.err ("no block data found for slot " ++ toString slot), [call])
      else
        (.err ("API error: " ++ er.message ++ " (code: " ++ toString er.code ++ ")"), [call])
    | .rpc none none => (.err ("no block data found for slot " ++ toString slot), [call])
    | .rpc none (some m) => (.ok (buildBeaconBlock m), [call])

/-- The base-fee parse of `getExecutionBlockReward`: a present, non-empty
string is hex-parsed after trimming `0x`; a parse failure only logs a
warning and keeps zero. -/
def parseBaseFee (o : Option String) : Int :=
  match presentNonempty o with
  | some s =>
    match parseHexInt (goTrim0x s) with
    | some v => v
    | none => 0
  | none => 0

/-- Per-transaction priority fee of the reward loop: the parsed
`maxPriorityFeePerGas` when present and non-empty (a parse failure skips
the transaction); otherwise `gasPrice - baseFeePerGas` floored at zero for
legacy transactions; otherwise the transaction is skipped (`none`). -/
def txPriorityFee (tx : ExecTx) (baseFee : Int) : Option Int :=
  match presentNonempty tx.maxPriorityFeePerGas with
  | some s => parseHexInt (goTrim0x s)
  | none =>
    match presentNonempty tx.gasPrice with
    | some s =>
      match parseHexInt (goTrim0x s) with
      | some gasPrice =>
        let pf := gasPrice - baseFee
        some (if pf < 0 then 0 else pf)
      | none => none
    | none => none

/-- Per-transaction gas value (the `gas` field, used as a stand-in for gas
used); absent, empty or unparseable gas skips the transaction. -/
def txGas (tx : ExecTx) : Option Int :=
  match presentNonempty tx.gas with
  | some s => parseHexInt (goTrim0x s)
  | none => none

/-- The reward-summation loop over the execution-block transactions:
string entries and transactions whose fee or gas fails to resolve are
skipped, the rest contribute `priority_fee * gas`. -/
def sumTxRewards (txs : List ExecTxEntry) (baseFee : Int) : Int :=
  txs.foldl
    (fun acc e =>
      match e with
      | .txString _ => acc
      | .txObject tx =>
        match txPriorityFee tx baseFee, txGas tx with
        | some pf, some g => acc + pf * g
        | _, _ => acc)
    0

/-- The fetch-and-aggregate part of `getExecutionBlockReward` (everything
after the empty-hash early return), with fuel for the rate-limit retry. -/
def execRewardLoop (env : RewardEnv) (blockHash : String) :
    Nat → FetchResult Int × List RpcCall
  | 0 => (.diverge, [])
  | n + 1 =>
    let call := RpcCall.getBlockByHash blockHash
    match env.execResp (n + 1) with
    | .rateLimited =>
      let r := execRewardLoop env blockHash n
      (r.1, call :: r.2)
    | .decodeFail m => (.err ("failed to decode response: " ++ m), [call])
    | .rpc (some er) _ =>
      (.err ("API error: " ++ er.message ++ " (code: " ++ toString er.code ++ ")"), [call])
    | .rpc none none => (.err ("no block data found for hash " ++ blockHash), [call])
    | .rpc none (some m) =>
      let baseFee := parseBaseFee m.baseFeePerGas
      let total := sumTxRewards (m.transactions.getD []) baseFee
      if total ≤ 0 then (.ok 10000000000, [call]) else (.ok total, [call])

/-- Embedding of `getExecutionBlockReward`: an empty block hash returns a
zero reward without any RPC call, otherwise the block is fetched and the
transaction rewards are summed (with the zero-total fallback of 10^10 wei
applied inside the fetch). -/
def getExecutionBlockReward (env : RewardEnv) (blockHash : String) (fuel : Nat) :
    FetchResult Int × List RpcCall :=
  if blockHash = "" then (.ok 0, []) else execRewardLoop env blockHash fuel

/-- The `BlockReward` result record of the service: a status string of
`"mev"` or `"vanilla"` and a reward in GWEI. -/
structure BlockReward where
  status : String
  reward : Int
deriving Repr, DecidableEq

/-- Go `map[bool]string{true: "mev", false: "vanilla"}[isMev]`. -/
def statusOf (isMev : Bool) : String := if isMev then "mev" else "vanilla"

/-- Outcome of `GetBlockRewardBySlot` as discriminated by the handler:
the sentinel errors `ErrFutureSlot` and `ErrSlotNotFound`, any other error
(carrying its message), divergence of a retry loop, or a result. -/
inductive RewardOutcome where
  | futureSlot
  | slotNotFound
  | failure (msg : String)
  | diverge
  | ok (r : BlockReward)
deriving Repr, DecidableEq

/-- Embedding of `GetBlockRewardBySlot`.  The future-slot gate runs before
any fetch; a beacon-block error whose text contains `"does not exist"`
becomes `ErrSlotNotFound`; an empty execution-payload hash short-circuits
to a vanilla zero reward; a failed execution fetch falls back to the
default reward `10000000 / 10^9` wei-to-GWEI conversion; a zero converted
reward is replaced by 1000 GWEI. -/
def GetBlockRewardBySlot (env : RewardEnv) (now slot : Int) (fuel : Nat) :
    RewardOutcome × List RpcCall :=
  let currentSlot := now.tdiv 12
  if slot > currentSlot then (.futureSlot, [])
  else
    match getBeaconBlock env slot fuel with
    | (.diverge, tr) => (.diverge, tr)
    | (.err e, tr) =>
      if goContains e "does not exist" then (.slotNotFound, tr)
      else (.failure ("failed to get beacon block: " ++ e), tr)
    | (.ok beaconBlock, tr) =>
      let isMev := isMEVBlock beaconBlock
      let blockHash := beaconBlock.blockHash
      if blockHash = "" then (.ok ⟨"vanilla", 0⟩, tr)
      else
        match getExecutionBlockReward env blockHash fuel with
        | (.diverge, tr2) => (.diverge, tr ++ tr2)
        | (.err _, tr2) =>
          (.ok ⟨statusOf isMev, Int.ediv 10000000 1000000000⟩, tr ++ tr2)
        | (.ok reward, tr2) =>
          let gweiReward := Int.ediv reward 1000000000
          let gweiReward := if gweiReward = 0 then 1000 else gweiReward
          (.ok ⟨statusOf isMev, gweiReward⟩, tr ++ tr2)

/-- The JSON body of a successful `/blockreward/{slot}` response. -/
structure BlockRewardResponse where
  status : String
  reward : Int
  proposerPayment : Int
  isMevBoost : Bool
deriving Repr, DecidableEq

/-- What the block-reward handler writes: a 200 body, an error status with
an `error` message body, or no response at all when the service call never
returns. -/
inductive HttpBlockRewardResult where
  | success (body : BlockRewardResponse)
  | errorResp (code : Nat) (msg : String)
  | noResponse
deriving Repr, DecidableEq

/-- Embedding of the error mapping and response construction of
`Handler.GetBlockReward` (handler/blockrewardHandler.go). -/
def handleBlockReward (outcome : RewardOutcome) : HttpBlockRewardResult :=
  match outcome with
  | .futureSlot => .errorResp 400 "Slot is in the future"
  | .slotNotFound => .errorResp 404 "Slot does not exist"
  | .failure _ => .errorResp 500 "Internal server error"
  | .diverge => .noResponse
  | .ok r =>
    .success
      { status := r.status
        reward := toInt64 r.reward
        proposerPayment := toInt64 r.reward
        isMevBoost := r.status == "mev" }

/-- The fixed table of validator public keys bundled with the service
(`validatorPubkeys` in `getActiveValidatorsForEpoch`), 24 entries. -/
def validatorPubkeys : List String :=
  [ "0x8000091c2ae64ee414a54c1cc1fc67dec663408bc636cb86756e0200e41a75c8f86603f104f02c856983d2783116be13"
  , "0x8000091c2ae64ee414a54c1cc1fc67dec663408bc636cb86756e0200e41a75c8f86603f104f02c856983d2783116be14"
  , "0xa1d1ad0714035353258038e964ae9675dc0252ee24daffcb82688956ebf71d0de0fc5450436cfb148eb867acb2bdf44d"
  , "0xb2ff4716ed345b05dd1dfc6a5a9fa70856d8c75dcc9e881dd2f766d5f891326f0d0b9024523b9c35cc13d9c0e689aea3"
  , "0x8a896180ff9d8e98304e9b2e5c418202fa0e50a1157442a5b52fc10b464a6c114dfc31f463e4ea27c1c24112e3a14857"
  , "0x8d61ee78745e8c855af1085184e9c5646418fcfc5f446e3e99d5db6b0cbe74f7c0792833c876044d53bd7886de12371c"
  , "0xae241af60691fda1cf8ca44d49573c55818c53b6141800cca2d488b9a3fba71c0f869179fff50c084ae31d9bac2ba35c"
  , "0x84274f8d9c1e25d6d2f6b62c256e427e9daa79dff932a658b334ce3a5775574b23b6532753b90b74e56a24b148caf5b7"
  , "0x872c61b4a7f8510ec809e5b023f5fdda2105d024c470ddbbeca4bc74e8280af0d178d749853e8f6a841083ac1b4db98f"
  , "0xb2965bf5de4731c8fef4f2d8886d4f9564c5d2d8eb957e5f624dd010e9c36f947c6c0ab78df06e67dd6cf290c53313e5"
  , "0x8cffca6ab53ec85904d6a32f0b360c027926d4ae83c136b7fa979ebaba16da82c37bb4a335629741e1ffc8017f0c0d99"
  , "0x8e98f02a14788cc9348d4c988ff98c2440282a230a57d0e57482c59a90f11df1ec93af597c9b6188a2ba7d82ac5d52a1"
  , "0x8f5bab954b24a4e9b118a8a39b4c3663d6861b3316fd5a326a2a632a7de1438fe2dafe9d4d3429f04db5a1a5c1e89c4e"
  , "0x90a766525a8141ad2869e3b3ae9a952f61e596235a548631e3354ff3881891c18fc9e7d1fc3fd65c3271693e781c215a"
  , "0x909d0f2fa98422ce15369643b650aa1200a1200cc88ab416ca3f2ea9582b651f0a97bd10dfa8735402cf89a2498c9af5"
  , "0x948339fff96a195de4bdc3e121abc427dae48f23966244b1363436a61e5d0c733e79feb9f900ea58a9886fc0ba862be6"
  , "0x968bb4503245548dc8dc145cf111762e5e693ec964cef572e87e2939df581cf214f57ae3c49da6728cf427389e6cb3c8"
  , "0x974bfc7fe01143d83776ac14de6142fb04b54cf3ca7de9064a2d31183a255525b89ee6af078a8a6ba07cc49186150266"
  , "0x994f8f0599cec69720a9871d8734c6e9f5f36d2045294082a51c40f351c7217c69d0f6f66947cd95f88fe9ec0492068d"
  , "0x994fcd4a09c273f0f1d46eb219e15c33e6caa9c93a2c87004339ec67c4808559f9f9aeff9cf7e8eea8f13bb5f3a0c5d5"
  , "0x99a9a37bc913168a76701a32c53652a19a1ab96ce1a14a121bfb89565def0be5ac0a45c4538e53ff73e1cbd84f763339"
  , "0x99ccbcbf38fb63dea44bdc118848574b238c64a0ea48fb2d9f89280a485f56fc4d5c48ac2c3e3331937c35c2cc2d9661"
  , "0x9a64ef3e62b96990305c10b76056f2fcc7a3fb92908bbccd1f769304c1c151a1d7f00a09354252bb2f5324b61845d459"
  , "0x9a9cdcd34b18e5771c7feb5374d2cc738cbdf3686fbe1d4bacdb9db7eb692edd50c347b15a2cb2de2034028b6b73f44a" ]

/-- The seed of the synthetic generator:
`(slot * 1000 + epoch * 2000) % 1000000` with Go truncated remainder. -/
def syntheticSeed (epoch slot : Int) : Int :=
  (slot * 1000 + epoch * 2000).tmod 1000000

/-- Go slice indexing `validatorPubkeys[index]`: `none` models the
index-out-of-range panic (a negative or too-large index). -/
def tableLookup (idx : Int) : Option String :=
  if 0 ≤ idx then validatorPubkeys[idx.toNat]? else none

/-- A loop that evaluates `f` on every element and fails as soon as one
evaluation fails (the all-or-nothing shape of the Go selection loop,
whose indexing can panic). -/
def mapOptionAll {α β : Type} (f : α → Option β) : List α → Option (List β)
  | [] => some []
  | a :: l => (f a).bind (fun b => (mapOptionAll f l).map (fun bs => b :: bs))

/-- Embedding of `getActiveValidatorsForEpoch`: the seeded selection of
`8 + seed % 16` entries (clamped to the table size) at indices
`(seed + i*i) % len(table)`; `none` models the panic on a negative index,
which the Go code does not guard against. -/
def getActiveValidatorsForEpoch (epoch slot : Int) : Option (List String) :=
  let seed := syntheticSeed epoch slot
  let count0 := 8 + seed.tmod 16
  let count := if count0 > (validatorPubkeys.length : Int) then (validatorPubkeys.length : Int) else count0
  mapOptionAll
    (fun (i : Nat) => tableLookup ((seed + (i : Int) * (i : Int)).tmod (validatorPubkeys.length : Int)))
    (List.range count.toNat)

/-- The `epoch = slot / 32` derivation of `GetSyncDutiesBySlot`. -/
def epochOfSlot (slot : Int) : Int := slot.tdiv 32

/-- The `syncPeriod = epoch / 256` derivation of `GetSyncDutiesBySlot`. -/
def syncPeriodService (slot : Int) : Int := (epochOfSlot slot).tdiv 256

/-- The `syncPeriod := slot / 8192` computation of the sync-duties
handler (handler/syncdutiesHandler.go). -/
def syncPeriodHandler (slot : Int) : Int := slot.tdiv 8192

/-- Decoded `beacon_get_state_sync_committees` response body: the
validator list of `result.data` plus the optional JSON-RPC error. -/
structure CommitteeResult where
  validators : List String
  error : Option RpcError
deriving Repr, DecidableEq

/-- The upstream environment of the sync-duty resolver: the raw body of
the `eth_getBlockByNumber` probe (indexed by remaining fuel, since it is
re-issued on rate limit), the decoded committee response (`none` models a
JSON unmarshal failure) and the decoded pubkey list of the
`beacon_get_validators` fallback (`none` again an unmarshal failure). -/
structure SyncEnv where
  blockResp : Nat → String
  committeeResp : Option CommitteeResult
  validatorsResp : Option (List String)

/-- Outcome of `GetSyncDutiesBySlot`: the `ErrFutureSlot` sentinel,
divergence of the rate-limit retry, the index-out-of-range panic of the
synthetic generator, or a validator list. -/
inductive SyncOutcome where
  | futureSlot
  | diverge
  | crashed
  | ok (validators : List String)
deriving Repr, DecidableEq

/-- The synthetic-fallback tail of the sync-duty resolver, shared by the
two branches that give up on upstream data. -/
def syntheticOutcome (epoch slot : Int) : SyncOutcome :=
  match getActiveValidatorsForEpoch epoch slot with
  | some keys => .ok keys
  | none => .crashed

/-- The post-validation body of `GetSyncDutiesBySlot`, with fuel driving
the rate-limit retry of the block probe.  The probe body is tested for the
`"request limit reached"` marker; the committee strategy is used unless
its body failed to unmarshal or carried a non-empty error message; the
`beacon_get_validators` strategy is used next unless it failed to
unmarshal or decoded to no entries; the synthetic generator is last.
Every strategy caps its list at 32 entries. -/
def syncLoop (env : SyncEnv) (now slot : Int) : Nat → SyncOutcome × List RpcCall
  | 0 => (.diverge, [])
  | n + 1 =>
    let epoch := epochOfSlot slot
    let syncPeriod := (epochOfSlot slot).tdiv 256
    let blockCall := RpcCall.getBlockByNumber slot
    if goContains (env.blockResp (n + 1)) "request limit reached" then
      let r := syncLoop env now slot n
      (r.1, blockCall :: r.2)
    else
      let trace0 := [blockCall, RpcCall.ethSyncing, RpcCall.getStateSyncCommittees epoch syncPeriod]
      let committeeFailed : Bool :=
        match env.committeeResp with
        | none => true
        | some cd =>
          match cd.error with
          | some er => decide (er.message ≠ "")
          | none => false
      if committeeFailed then
        let trace1 := trace0 ++ [RpcCall.getValidators epoch]
        match env.validatorsResp with
        | none => (syntheticOutcome epoch slot, trace1)
        | some pubkeys =>
          if pubkeys.length = 0 then (syntheticOutcome epoch slot, trace1)
          else (.ok (pubkeys.take 32), trace1)
      else
        let validators :=
          match env.committeeResp with
          | some cd => cd.validators
          | none => []
        let validators := if validators.length > 32 then validators.take 32 else validators
        (.ok validators, trace0)

/-- Embedding of `GetSyncDutiesBySlot`: the future-slot gate runs before
any fetch, then the strategy chain of `syncLoop`.  (In the Go code the
rate-limit retry restarts the whole function; since a slot that passed the
gate can only move further into the past, re-running the gate never
changes the outcome, so the gate is factored in front of the loop.) -/
def GetSyncDutiesBySlot (env : SyncEnv) (now slot : Int) (fuel : Nat) :
    SyncOutcome × List RpcCall :=
  let currentSlot := now.tdiv 12
  if slot > currentSlot then (.futureSlot, [])
  else syncLoop env now slot fuel

/-! Environments used to evaluate the resolvers at concrete inputs. -/

/-- An upstream that answers every block fetch with the JSON-RPC error
body whose message is `"Unknown block"`. -/
def unknownBlockEnv : RewardEnv :=
  { beaconResp := fun _ => .rpc (some ⟨-32000, "Unknown block"⟩) none
    execResp := fun _ => .rateLimited }

/-- An upstream whose beacon block decodes fine (non-empty hash, builder
marker in the extra data) but whose execution-block fetch fails with a
JSON-RPC error. -/
def execFailEnv : RewardEnv :=
  { beaconResp := fun _ =>
      .rpc none (some ⟨some "0xabc", none, some "flashbots builder", none, some [], none⟩)
    execResp := fun _ => .rpc (some ⟨-32000, "boom"⟩) none }

/-- The synthetic single-transaction block of the aggregation round-trip:
`baseFeePerGas = 0x5`, one transaction with `gasPrice = 0x8`,
`gas = 0x5208` and no `maxPriorityFeePerGas`. -/
def roundTripEnv : RewardEnv :=
  { beaconResp := fun _ => .rpc none (some ⟨some "0xabc", none, none, none, some [], none⟩)
    execResp := fun _ =>
      .rpc none (some ⟨some "0x5", some [.txObject ⟨none, some "0x8", some "0x5208"⟩]⟩) }

/-- A sync-duty upstream that never rate-limits and whose committee
strategy succeeds with an empty validator list. -/
def emptyCommitteeEnv : SyncEnv :=
  { blockResp := fun _ => ""
    committeeResp := some ⟨[], none⟩
    validatorsResp := none }

/-- A sync-duty upstream that never rate-limits and whose committee
strategy succeeds with a single validator. -/
def oneValidatorEnv : SyncEnv :=
  { blockResp := fun _ => ""
    committeeResp := some ⟨["0xaa"], none⟩
    validatorsResp := none }

/-- A sync-duty upstream that answers every block probe with a rate-limit
rejection body. -/
def rateLimitEnv : SyncEnv :=
  { blockResp := fun _ => "request limit reached"
    committeeResp := some ⟨[], none⟩
    validatorsResp := none }

/-! Claim theorems. -/

/-- C1 (code bug): with an upstream that returns
`{"error": {"message": "Unknown block"}}` for the block fetch of a past
slot, `GetBlockRewardBySlot` does NOT produce the `SlotNotFound`
condition: `getBeaconBlock` turns the error into
`"no block data found for slot 0"`, the `"does not exist"` containment
test can never match that text, and the handler therefore answers
500 `"Internal server error"` instead of the documented
404 `\x7b"error": "Slot does not exist"\x7d`. -/
theorem unknown_block_maps_to_500_not_404 :
    GetBlockRewardBySlot unknownBlockEnv 120 0 1
        = (.failure "failed to get beacon block: no block data found for slot 0",
           [.getBlockByNumber 0])
      ∧ handleBlockReward (GetBlockRewardBySlot unknownBlockEnv 120 0 1).1
        = .errorResp 500 "Internal server error"
      ∧ handleBlockReward (GetBlockRewardBySlot unknownBlockEnv 120 0 1).1
        ≠ .errorResp 404 "Slot does not exist" := by
  refine ⟨by decide, by decide, by decide⟩

/-- C2 (code bug): when the execution-block fetch fails, the operation
does not fail and keeps the MEV classification computed from the beacon
block, but the fallback reward is `10000000 / 10^9 = 0` GWEI — zero, not
the positive placeholder the specification describes. -/
theorem exec_fetch_failure_returns_zero_reward :
    (GetBlockRewardBySlot execFailEnv 120 0 1).1
        = .ok ⟨"mev", Int.ediv 10000000 1000000000⟩
      ∧ Int.ediv 10000000 1000000000 = 0
      ∧ (GetBlockRewardBySlot execFailEnv 120 0 1).1 = .ok ⟨"mev", 0⟩ := by
  refine ⟨by decide, by decide, by decide⟩

/-- C3 (confirmed): for the synthetic block with exactly one transaction
having `gasPrice = 8`, `baseFeePerGas = 5`, `gas = 21000` (hex `0x5208`)
and no `maxPriorityFeePerGas`, the priority fee is `3`, the aggregate
reward is `63000` wei, the GWEI conversion truncates it to `0`, and
`GetBlockRewardBySlot` substitutes the fixed non-zero placeholder 1000
instead of returning a raw zero. -/
theorem reward_aggregation_roundtrip :
    txPriorityFee ⟨none, some "0x8", some "0x5208"⟩ 5 = some 3
      ∧ parseHexInt "5208" = some 21000
      ∧ (getExecutionBlockReward roundTripEnv "0xabc" 1).1 = .ok 63000
      ∧ Int.ediv 63000 1000000000 = 0
      ∧ (GetBlockRewardBySlot roundTripEnv 120 0 1).1 = .ok ⟨"vanilla", 1000⟩
      ∧ (1000 : Int) ≠ 0 := by
  refine ⟨by decide, by decide, by decide, by decide, by decide, by decide⟩

/-- C4 (confirmed): the MEV classifier of the code agrees with the
reference classifier written from the specification on every beacon
block: empty extra data is vanilla regardless of the transaction count;
otherwise a case-insensitive occurrence of one of the five builder names
is MEV; otherwise strictly more than 20 transactions is MEV; otherwise
vanilla. -/
theorem isMEVBlock_eq_reference (b : BeaconBlockResponse) :
    isMEVBlock b = isMEVBlockRef b := by
  unfold isMEVBlock isMEVBlockRef
  have hempty := string_length_eq_zero_iff b.extraData
  have hany : mevBuilderPrefixes.any (fun p => goContains (goToLower b.extraData) p)
      = (goContains (goToLower b.extraData) "flashbots"
        || goContains (goToLower b.extraData) "builder0x69"
        || goContains (goToLower b.extraData) "rsync-builder"
        || goContains (goToLower b.extraData) "manifold"
        || goContains (goToLower b.extraData) "eth-builder") := by
    simp [mevBuilderPrefixes, Bool.or_assoc]
  simp only []
  rw [hany]
  by_cases he : b.extraData = ""
  · simp [he]
  · have hfalse : (b.extraData.length == 0) = false := by
      cases hb : (b.extraData.length == 0) with
      | false => rfl
      | true => exact absurd (hempty.mp hb) he
    simp [hfalse, he]

/-- C5 (confirmed): any slot strictly beyond the wall-clock slot
`now / 12` makes both resolvers fail with the `FutureSlot` condition, and
their outbound call trace is empty — the gate runs before any RPC,
whatever the upstream environment would have answered. -/
theorem future_slot_rejected_before_any_rpc
    (envR : RewardEnv) (envS : SyncEnv) (now slot : Int) (fuel : Nat)
    (h : now.tdiv 12 < slot) :
    GetBlockRewardBySlot envR now slot fuel = (.futureSlot, [])
      ∧ GetSyncDutiesBySlot envS now slot fuel = (.futureSlot, []) := by
  constructor <;> simp [GetBlockRewardBySlot, GetSyncDutiesBySlot, h]

/-- Witness for C5 at `now = 120`, `slot = 11` (current slot 10). -/
theorem future_slot_rejected_witness :
    (120 : Int).tdiv 12 < 11
      ∧ (GetBlockRewardBySlot unknownBlockEnv 120 11 1 = (.futureSlot, [])
        ∧ GetSyncDutiesBySlot rateLimitEnv 120 11 1 = (.futureSlot, [])) :=
  ⟨by decide, future_slot_rejected_before_any_rpc unknownBlockEnv rateLimitEnv 120 11 1 (by decide)⟩

/-- C8 (confirmed): for every non-negative slot, the sync period computed
by the handler as `slot / 8192` equals the service derivation
`(slot / 32) / 256`. -/
theorem sync_period_formulas_agree (slot : Int) (h : 0 ≤ slot) :
    syncPeriodHandler slot = syncPeriodService slot := by
  obtain ⟨n, rfl⟩ := Int.eq_ofNat_of_zero_le h
  unfold syncPeriodHandler syncPeriodService epochOfSlot
  show (Int.ofNat n).tdiv 8192 = ((Int.ofNat n).tdiv 32).tdiv 256
  have h1 : (Int.ofNat n).tdiv 8192 = Int.ofNat (n / 8192) := rfl
  have h2 : ((Int.ofNat n).tdiv 32).tdiv 256 = Int.ofNat (n / 32 / 256) := rfl
  rw [h1, h2, Nat.div_div_eq_div_mul]

/-- Witness for C8 at slot 4700000 (period 573). -/
theorem sync_period_formulas_agree_witness :
    (0 : Int) ≤ 4700000 ∧ syncPeriodHandler 4700000 = syncPeriodService 4700000 :=
  ⟨by decide, sync_period_formulas_agree 4700000 (by decide)⟩

/-- C10 (confirmed): every 200 body built by the block-reward handler has
`proposer_payment` equal to the top-level `reward` and `is_mev_boost` true
exactly when `status` is `"mev"`. -/
theorem block_reward_response_consistency
    (outcome : RewardOutcome) (b : BlockRewardResponse)
    (h : handleBlockReward outcome = .success b) :
    b.proposerPayment = b.reward ∧ (b.isMevBoost = true ↔ b.status = "mev") := by
  cases outcome with
  | ok r =>
    simp only [handleBlockReward, HttpBlockRewardResult.success.injEq] at h
    subst h
    exact ⟨rfl, by simp [beq_iff_eq]⟩
  | futureSlot => simp [handleBlockReward] at h
  | slotNotFound => simp [handleBlockReward] at h
  | failure msg => simp [handleBlockReward] at h
  | diverge => simp [handleBlockReward] at h

/-- Witness for C10 on the service result `status = "mev"`, `reward = 5`. -/
theorem block_reward_response_consistency_witness :
    (⟨"mev", 5, 5, true⟩ : BlockRewardResponse).proposerPayment
        = (⟨"mev", 5, 5, true⟩ : BlockRewardResponse).reward
      ∧ ((⟨"mev", 5, 5, true⟩ : BlockRewardResponse).isMevBoost = true
        ↔ (⟨"mev", 5, 5, true⟩ : BlockRewardResponse).status = "mev") :=
  block_reward_response_consistency (.ok ⟨"mev", 5⟩) ⟨"mev", 5, 5, true⟩ (by decide)

/-! Helper lemmas about the all-or-nothing selection loop. -/

theorem mapOptionAll_eq_some_map {α β : Type} (f : α → Option β) (g : α → β) :
    ∀ l : List α, (∀ a ∈ l, f a = some (g a)) → mapOptionAll f l = some (l.map g)
  | [], _ => rfl
  | a :: l, h => by
    have ha := h a (List.mem_cons_self a l)
    have hl := mapOptionAll_eq_some_map f g l (fun x hx => h x (List.mem_cons_of_mem a hx))
    simp [mapOptionAll, ha, hl]

theorem mapOptionAll_some_length {α β : Type} (f : α → Option β) :
    ∀ (l : List α) (l2 : List β), mapOptionAll f l = some l2 → l2.length = l.length := by
  intro l
  induction l with
  | nil => intro l2 h; simp [mapOptionAll] at h; simp [← h]
  | cons a t ih =>
    intro l2 h
    simp only [mapOptionAll] at h
    cases hfa : f a with
    | none => rw [hfa] at h; simp at h
    | some b =>
      cases hft : mapOptionAll f t with
      | none => rw [hfa, hft] at h; simp at h
      | some bs =>
        rw [hfa, hft] at h
        simp at h
        have := ih bs hft
        rw [← h]
        simp [this]

/-- The table has 24 entries. -/
theorem validatorPubkeys_length : validatorPubkeys.length = 24 := rfl

/-- C7 (confirmed): for non-negative slot and epoch the synthetic
generator succeeds and returns exactly `8 + (seed % 16)` keys for
`seed = (slot * 1000 + epoch * 2000) % 1000000`, a size always between 8
and 23, and its i-th key is the table entry at index
`(seed + i * i) % len(table)`. -/
theorem synthetic_generator_spec (epoch slot : Int) (he : 0 ≤ epoch) (hs : 0 ≤ slot) :
    ∃ keys, getActiveValidatorsForEpoch epoch slot = some keys
      ∧ keys.length = (8 + (syntheticSeed epoch slot).tmod 16).toNat
      ∧ 8 ≤ keys.length ∧ keys.length ≤ 23
      ∧ ∀ i : Nat, i < keys.length →
          keys[i]? = validatorPubkeys[
            (((syntheticSeed epoch slot + (i : Int) * (i : Int)).tmod
                (validatorPubkeys.length : Int)).toNat)]? := by
  have hseed0 : 0 ≤ syntheticSeed epoch slot := by
    refine Int.tmod_nonneg _ ?_
    have h1 : 0 ≤ slot * 1000 := by positivity
    have h2 : 0 ≤ epoch * 2000 := by positivity
    omega
  set seed := syntheticSeed epoch slot with hseed
  have hm16a : 0 ≤ seed.tmod 16 := Int.tmod_nonneg _ hseed0
  have hm16b : seed.tmod 16 < 16 := Int.tmod_lt_of_pos _ (by decide)
  have hlen : (validatorPubkeys.length : Int) = 24 := by rw [validatorPubkeys_length]; rfl
  set g : Nat → String :=
    fun i => (validatorPubkeys[((seed + (i : Int) * (i : Int)).tmod
      (validatorPubkeys.length : Int)).toNat]?).getD "" with hg
  have hcount : (if 8 + seed.tmod 16 > (validatorPubkeys.length : Int)
      then (validatorPubkeys.length : Int) else 8 + seed.tmod 16) = 8 + seed.tmod 16 := by
    rw [if_neg]; omega
  have hidxN : ∀ i : Nat, 0 ≤ (seed + (i : Int) * (i : Int)).tmod (validatorPubkeys.length : Int)
      ∧ ((seed + (i : Int) * (i : Int)).tmod (validatorPubkeys.length : Int)).toNat
        < validatorPubkeys.length := by
    intro i
    have hii : (0 : Int) ≤ (i : Int) * (i : Int) := by positivity
    have hd0 : 0 ≤ seed + (i : Int) * (i : Int) := by omega
    have hidx0 := Int.tmod_nonneg (validatorPubkeys.length : Int) hd0
    have hidx1 : (seed + (i : Int) * (i : Int)).tmod (validatorPubkeys.length : Int)
        < (validatorPubkeys.length : Int) :=
      Int.tmod_lt_of_pos _ (by rw [hlen]; decide)
    exact ⟨hidx0, by omega⟩
  have hlookup : ∀ i : Nat,
      tableLookup ((seed + (i : Int) * (i : Int)).tmod (validatorPubkeys.length : Int))
        = some (g i) := by
    intro i
    obtain ⟨hidx0, hidxNat⟩ := hidxN i
    have hx := List.getElem?_eq_getElem hidxNat
    unfold tableLookup
    rw [if_pos hidx0, hx, hg]
    simp [hx]
  have hmapM := mapOptionAll_eq_some_map
    (fun (i : Nat) => tableLookup ((seed + (i : Int) * (i : Int)).tmod (validatorPubkeys.length : Int)))
    g (List.range (8 + seed.tmod 16).toNat) (fun a _ => hlookup a)
  refine ⟨(List.range (8 + seed.tmod 16).toNat).map g, ?_, ?_, ?_, ?_, ?_⟩
  · show (let seed := syntheticSeed epoch slot;
      let count0 := 8 + seed.tmod 16;
      let count := if count0 > (validatorPubkeys.length : Int)
        then (validatorPubkeys.length : Int) else count0;
      mapOptionAll
        (fun (i : Nat) => tableLookup ((seed + (i : Int) * (i : Int)).tmod
          (validatorPubkeys.length : Int)))
        (List.range count.toNat)) = _
    simp only [← hseed, hcount]
    exact hmapM
  · simp
  · simp; omega
  · simp; omega
  · intro i hi
    simp only [List.length_map, List.length_range] at hi
    rw [List.getElem?_map, List.getElem?_range hi]
    obtain ⟨hidx0, hidxNat⟩ := hidxN i
    have hx := List.getElem?_eq_getElem hidxNat
    rw [hx, hg]
    simp [hx]

/-- Witness for C7 at `epoch = 0`, `slot = 0` (seed 0, 8 keys). -/
theorem synthetic_generator_spec_witness :
    (0 : Int) ≤ 0
      ∧ ∃ keys, getActiveValidatorsForEpoch 0 0 = some keys
        ∧ keys.length = (8 + (syntheticSeed 0 0).tmod 16).toNat
        ∧ 8 ≤ keys.length ∧ keys.length ≤ 23
        ∧ ∀ i : Nat, i < keys.length →
            keys[i]? = validatorPubkeys[
              (((syntheticSeed 0 0 + (i : Int) * (i : Int)).tmod
                  (validatorPubkeys.length : Int)).toNat)]? :=
  ⟨by decide, synthetic_generator_spec 0 0 (by decide) (by decide)⟩

/-- Any successful run of the synthetic generator returns at most 24 keys
(the clamp of the selection count at the table size). -/
theorem getActiveValidatorsForEpoch_length_le (epoch slot : Int) (keys : List String)
    (h : getActiveValidatorsForEpoch epoch slot = some keys) : keys.length ≤ 24 := by
  unfold getActiveValidatorsForEpoch at h
  simp only [] at h
  have hlen := mapOptionAll_some_length _ _ _ h
  rw [List.length_range, validatorPubkeys_length] at hlen
  split at hlen
  · simp at hlen; omega
  · rename_i hc
    omega

/-- Every successful result of the strategy chain holds at most 32
validators. -/
theorem syncLoop_ok_length (env : SyncEnv) (now slot : Int) :
    ∀ (fuel : Nat) (vs : List String),
      (syncLoop env now slot fuel).1 = SyncOutcome.ok vs → vs.length ≤ 32 := by
  intro fuel
  induction fuel with
  | zero => intro vs h; simp [syncLoop] at h
  | succ n ih =>
    intro vs h
    by_cases hrl : goContains (env.blockResp (n + 1)) "request limit reached" = true
    · have hstep : (syncLoop env now slot (n + 1)).1 = (syncLoop env now slot n).1 := by
        simp [syncLoop, hrl]
      rw [hstep] at h
      exact ih vs h
    · rw [Bool.not_eq_true] at hrl
      have hfail : ∀ hkeys : List String,
          getActiveValidatorsForEpoch (epochOfSlot slot) slot = some hkeys →
          hkeys = vs → vs.length ≤ 32 := by
        intro hkeys hga hveq
        have := getActiveValidatorsForEpoch_length_le _ _ _ hga
        rw [← hveq]
        omega
      cases hcr : env.committeeResp with
      | none =>
        cases hvr : env.validatorsResp with
        | none =>
          simp [syncLoop, hrl, hcr, hvr, syntheticOutcome] at h
          cases hga : getActiveValidatorsForEpoch (epochOfSlot slot) slot with
          | none => rw [hga] at h; simp at h
          | some keys =>
            rw [hga] at h
            simp at h
            exact hfail keys hga h
        | some pubkeys =>
          by_cases hz : pubkeys.length = 0
          · simp [syncLoop, hrl, hcr, hvr, hz, syntheticOutcome] at h
            cases hga : getActiveValidatorsForEpoch (epochOfSlot slot) slot with
            | none => rw [hga] at h; simp at h
            | some keys =>
              rw [hga] at h
              simp at h
              exact hfail keys hga h
          · simp [syncLoop, hrl, hcr, hvr, hz] at h
            rw [← h]
            simp [List.length_take]
      | some cd =>
        cases hce : cd.error with
        | some er =>
          by_cases hmsg : er.message = ""
          · simp [syncLoop, hrl, hcr, hce, hmsg] at h
            split at h
            · rw [← h]; simp [List.length_take]
            · rename_i hle
              rw [← h]; omega
          · cases hvr : env.validatorsResp with
            | none =>
              simp [syncLoop, hrl, hcr, hce, hmsg, hvr, syntheticOutcome] at h
              cases hga : getActiveValidatorsForEpoch (epochOfSlot slot) slot with
              | none => rw [hga] at h; simp at h
              | some keys =>
                rw [hga] at h
                simp at h
                exact hfail keys hga h
            | some pubkeys =>
              by_cases hz : pubkeys.length = 0
              · simp [syncLoop, hrl, hcr, hce, hmsg, hvr, hz, syntheticOutcome] at h
                cases hga : getActiveValidatorsForEpoch (epochOfSlot slot) slot with
                | none => rw [hga] at h; simp at h
                | some keys =>
                  rw [hga] at h
                  simp at h
                  exact hfail keys hga h
              · simp [syncLoop, hrl, hcr, hce, hmsg, hvr, hz] at h
                rw [← h]
                simp [List.length_take]
        | none =>
          simp [syncLoop, hrl, hcr, hce] at h
          split at h
          · rw [← h]; simp [List.length_take]
          · rename_i hle
            rw [← h]; omega

/-- Counterexample to C6 as stated: an upstream whose sync-committee
strategy decodes successfully but carries an empty validator list makes
`GetSyncDutiesBySlot` succeed with zero validators, violating the claimed
lower bound of 1. -/
theorem sync_duties_can_return_empty_list :
    (GetSyncDutiesBySlot emptyCommitteeEnv 120 0 1).1 = .ok ([] : List String)
      ∧ ¬ (1 ≤ ([] : List String).length) :=
  ⟨by decide, by decide⟩

/-- C6 amended (corrected): every successful result of
`GetSyncDutiesBySlot` holds at most 32 validators, but the lower bound of
1 does not hold — the committee strategy may succeed with an empty
list. -/
theorem sync_duties_length_le_32
    (env : SyncEnv) (now slot : Int) (fuel : Nat) (vs : List String)
    (h : (GetSyncDutiesBySlot env now slot fuel).1 = SyncOutcome.ok vs) :
    vs.length ≤ 32 := by
  unfold GetSyncDutiesBySlot at h
  by_cases hf : slot > now.tdiv 12
  · rw [if_pos hf] at h; simp at h
  · rw [if_neg hf] at h
    exact syncLoop_ok_length env now slot fuel vs h

/-- Witness for the amended C6 on a committee response with one key. -/
theorem sync_duties_length_le_32_witness :
    (["0xaa"] : List String).length ≤ 32 :=
  sync_duties_length_le_32 oneValidatorEnv 120 0 1 ["0xaa"] (by decide)

/-- Under a permanently rate-limited upstream, the strategy chain spends
every unit of fuel re-issuing the same block probe and then diverges. -/
theorem syncLoop_rate_limit_diverges (now slot : Int) :
    ∀ fuel : Nat, syncLoop rateLimitEnv now slot fuel
      = (.diverge, List.replicate fuel (RpcCall.getBlockByNumber slot)) := by
  intro fuel
  induction fuel with
  | zero => rfl
  | succ n ih =>
    have hrl : goContains (rateLimitEnv.blockResp (n + 1)) "request limit reached" = true := by
      show goContains "request limit reached" "request limit reached" = true
      decide
    simp [syncLoop, hrl, ih, List.replicate_succ]

/-- C9 (confirmed): when every response to the block probe is a
rate-limit rejection, `GetSyncDutiesBySlot` re-issues the same
`eth_getBlockByNumber` call once per unit of fuel and diverges at every
fuel bound — the retry loop has no cap, so the call never terminates. -/
theorem sync_rate_limit_never_terminates (now slot : Int) (fuel : Nat)
    (h : ¬ now.tdiv 12 < slot) :
    GetSyncDutiesBySlot rateLimitEnv now slot fuel
      = (.diverge, List.replicate fuel (RpcCall.getBlockByNumber slot)) := by
  unfold GetSyncDutiesBySlot
  rw [if_neg h]
  exact syncLoop_rate_limit_diverges now slot fuel

/-- Witness for C9 at `now = 120`, `slot = 0`, fuel 3. -/
theorem sync_rate_limit_never_terminates_witness :
    GetSyncDutiesBySlot rateLimitEnv 120 0 3
      = (.diverge, List.replicate 3 (RpcCall.getBlockByNumber 0)) :=
  sync_rate_limit_never_terminates 120 0 3 (by decide)

end EthApi
